import Mathlib

/-!
Verification of the LDtk field-instance decoder of `src/serializing/ldtk/level.rs`.

The JSON documents consumed by the decoder are modelled by the `Json` tree below.
serde_json distinguishes integer numbers from float numbers inside its `Number`
type, which the model mirrors with the two constructors `Json.int` and
`Json.float`.  Finite `f32` payloads are modelled by the opaque wrapper `F32`:
the decoder never computes with floats, and serde_json's shortest-representation
printing round-trips every finite `f32`, so an abstract value-preserving token
is a faithful model; non-finite floats are out of scope.  Integer numbers carry
an unbounded `Int` together with explicit `i32` range checks where the Rust
code deserializes an `i32`.

The components of the repository that `level.rs` uses but whose sources are not
available (`json.rs` with `Nullable` and `LdtkColor`, `definitions.rs` with
`TilesetRect`, and the `transfer_str` macro) are modelled from the spec; each
such definition carries a doc comment starting with `Modelled from the spec:`.
-/

/-- Decode-time errors: the serde `Error` constructors used by
`FieldInstanceVisitor` (`duplicate_field`, `missing_field`, `unknown_field`,
`custom`), the generic shape errors of the underlying decoder (`invalidType`),
and the spec's `MalformedColor` for the hex-color parser. -/
inductive DecodeError where
  | duplicateField (name : String)
  | missingField (name : String)
  | unknownField (name : String)
  | malformedColor (text : String)
  | custom (msg : String)
  | invalidType (expected : String)

/-- Modelled from the spec: the optional-value wrapper `Nullable` of
`src/serializing/ldtk/json.rs` (not under src/): a two-state wrapper
distinguishing a present value from an absent (`null`) one. -/
inductive Nullable (α : Type) where
  | Data (val : α)
  | Null

/-- Abstract model of a finite `f32` value.  The decoder never performs float
arithmetic, so the payload is an opaque token; `val` is only an identity tag. -/
structure F32 where
  val : Int

/-- Abstract image of Rust's numeric cast from a non-`i32` integer to `f32`
(the path serde takes when an integer number does not fit `i32`). -/
def F32.ofIntCast (n : Int) : F32 := ⟨n⟩

/-- Modelled from the spec: the structured RGB color of
`src/serializing/ldtk/json.rs` (not under src/), three 8-bit channels parsed
from a `#rrggbb` string, alpha implicitly opaque. -/
structure LdtkColor where
  r : Nat
  g : Nat
  b : Nat

/-- Modelled from the spec: the `TilesetRect` of
`src/serializing/ldtk/definitions.rs` (not under src/), a reference to a
sub-rectangle of a source tile image. -/
structure TilesetRect where
  tileset_uid : Int
  x : Int
  y : Int
  w : Int
  h : Int

/-- The normalized field-type kinds (enum `FieldType` in level.rs). -/
inductive FieldType where
  | Int
  | Float
  | Bool
  | String
  | Multilines
  | FilePath
  | LocalEnum
  | ExternEnum
  | Color
  | Point
  | EntityRef
  | Array

/-- `LdtkEnum` of level.rs: an enum reference (name + variant). -/
structure LdtkEnum where
  name : String
  variant : String

/-- `EntityRef` of level.rs: the four instance identifiers of a referenced
entity (wire keys are camelCase: entityIid, layerIid, levelIid, worldIid). -/
structure EntityRef where
  entity_iid : String
  layer_iid : String
  level_iid : String
  world_iid : String

/-- `GridPoint` of level.rs (wire keys cx, cy). -/
structure GridPoint where
  cx : Int
  cy : Int

/-- The untagged `FieldValue` union of level.rs.  Constructor order matches the
Rust declaration order, which is the order serde tries the variants in. -/
inductive FieldValue where
  | Integer (n : Int)
  | Float (f : F32)
  | Bool (b : Bool)
  | String (s : String)
  | Multilines (s : String)
  | FilePath (s : String)
  | LocalEnum (e : LdtkEnum)
  | ExternEnum (e : LdtkEnum)
  | Color (c : LdtkColor)
  | Point (p : GridPoint)
  | EntityRef (r : EntityRef)
  | Array (vs : List FieldValue)

/-- `FieldInstance` of level.rs. -/
structure FieldInstance where
  def_uid : Int
  identifier : String
  tile : Nullable TilesetRect
  value : Nullable FieldValue

/-- A structured JSON document value.  `int` and `float` mirror serde_json's
internal distinction between integer and float numbers; `obj` keeps key/value
pairs in document order, duplicates included, exactly as a streaming decoder
sees them. -/
inductive Json where
  | int (n : Int)
  | float (f : F32)
  | bool (b : Bool)
  | str (s : String)
  | null
  | arr (xs : List Json)
  | obj (kvs : List (String × Json))

/-- Whether an unbounded integer is representable as a Rust `i32`. -/
def inI32 (n : Int) : Bool := -2147483648 ≤ n && n < 2147483648

/-- Model of Rust's `str::starts_with`, via the underlying character lists. -/
def strStartsWith (s p : String) : Bool := p.data.isPrefixOf s.data

/-- Modelled from the spec: hex digit recognition of the color parser in
`src/serializing/ldtk/json.rs` (not under src/); both cases accepted. -/
def hexVal? (c : Char) : Option Nat :=
  if '0' ≤ c ∧ c ≤ '9' then some (c.toNat - '0'.toNat)
  else if 'a' ≤ c ∧ c ≤ 'f' then some (c.toNat - 'a'.toNat + 10)
  else if 'A' ≤ c ∧ c ≤ 'F' then some (c.toNat - 'A'.toNat + 10)
  else none

/-- Modelled from the spec: the `#rrggbb` hex-color parser of
`src/serializing/ldtk/json.rs` (not under src/).  A string of the wrong
length, without the leading `#`, or with a non-hex character fails with
`MalformedColor` carrying the offending string. -/
def parseColor (s : String) : Except DecodeError LdtkColor :=
  match s.data with
  | ['#', c1, c2, c3, c4, c5, c6] =>
    match hexVal? c1, hexVal? c2, hexVal? c3, hexVal? c4, hexVal? c5, hexVal? c6 with
    | some h1, some h2, some h3, some h4, some h5, some h6 =>
      .ok ⟨16 * h1 + h2, 16 * h3 + h4, 16 * h5 + h6⟩
    | _, _, _, _, _, _ => .error (.malformedColor s)
  | _ => .error (.malformedColor s)

/-- Lowercase hex digit for a value below 16. -/
def hexDigitChar (n : Nat) : Char :=
  if n < 10 then Char.ofNat (48 + n) else Char.ofNat (87 + n)

/-- Two lowercase hex digits of a byte. -/
def byteHex (n : Nat) : List Char := [hexDigitChar (n / 16), hexDigitChar (n % 16)]

/-- Modelled from the spec: serializing an `LdtkColor` back to its `#rrggbb`
textual form (`src/serializing/ldtk/json.rs`, not under src/). -/
def colorToString (c : LdtkColor) : String :=
  ⟨'#' :: (byteHex c.r ++ byteHex c.g ++ byteHex c.b)⟩

/-- `FieldTypeVisitor::visit_str` of level.rs: normalize a raw type-tag token.
Prefix rules first (first match wins), then exact literal names, otherwise a
custom error naming the token. -/
def fieldTypeVisitStr (v : String) : Except DecodeError FieldType :=
  if strStartsWith v "LocalEnum" then .ok .LocalEnum
  else if strStartsWith v "ExternEnum" then .ok .ExternEnum
  else if strStartsWith v "Array" then .ok .Array
  else if v = "Int" then .ok .Int
  else if v = "Float" then .ok .Float
  else if v = "Bool" then .ok .Bool
  else if v = "String" then .ok .String
  else if v = "Multilines" then .ok .Multilines
  else if v = "FilePath" then .ok .FilePath
  else if v = "Color" then .ok .Color
  else if v = "Point" then .ok .Point
  else if v = "EntityRef" then .ok .EntityRef
  else .error (.custom ("Expected a field type, got " ++ v))

/-- The `FIELDS` constant of level.rs: the five recognized wire keys. -/
def FIELDS : List String := ["defUid", "__identifier", "__tile", "__type", "__value"]

/-- The key classification enum `FieldInstanceFields` of level.rs.  The source
constructor `Type` is a Lean keyword and is rendered `Ty` here. -/
inductive FieldInstanceFields where
  | DefUid
  | Identifier
  | Tile
  | Ty
  | Value
  | Skip

/-- `FieldInstanceFieldsVisitor::visit_str` of level.rs: map a wire key to its
logical field; the legacy key `realEditorValues` is mapped to `Skip`; any
other key fails with `unknown_field`. -/
def fieldInstanceFieldsVisitStr (v : String) : Except DecodeError FieldInstanceFields :=
  if v = "defUid" then .ok .DefUid
  else if v = "__identifier" then .ok .Identifier
  else if v = "__tile" then .ok .Tile
  else if v = "__type" then .ok .Ty
  else if v = "__value" then .ok .Value
  else if v = "realEditorValues" then .ok .Skip
  else .error (.unknownField v)

/-- The unique selection a serde derived struct makes for a field key inside a
buffered map: the value of the key if it occurs exactly once (a repeated key
makes the derived struct decode fail, a missing one too); other keys are
ignored because none of the nested structs denies unknown fields. -/
def lookupUnique (kvs : List (String × Json)) (k : String) : Option Json :=
  match kvs.filter (fun kv => kv.1 == k) with
  | [kv] => some kv.2
  | _ => none

/-- A required string field of a derived struct, from a buffered map. -/
def objStr? (kvs : List (String × Json)) (k : String) : Option String :=
  match lookupUnique kvs k with
  | some (.str s) => some s
  | _ => none

/-- A required `i32` field of a derived struct, from a buffered map. -/
def objI32? (kvs : List (String × Json)) (k : String) : Option Int :=
  match lookupUnique kvs k with
  | some (.int n) => if inI32 n then some n else none
  | _ => none

/-- Derived `Deserialize` of `LdtkEnum` against buffered content: from a map
with `name` and `variant` string fields (unknown keys ignored), or from a
sequence of exactly two strings (serde derived structs also accept their
fields positionally from a sequence). -/
def ldtkEnumFromContent? : Json → Option LdtkEnum
  | .obj kvs =>
    match objStr? kvs "name", objStr? kvs "variant" with
    | some n, some v => some ⟨n, v⟩
    | _, _ => none
  | .arr [.str n, .str v] => some ⟨n, v⟩
  | _ => none

/-- Derived `Deserialize` of `GridPoint` against buffered content: `cx`/`cy`
`i32` fields from a map, or a sequence of exactly two in-range integers. -/
def gridPointFromContent? : Json → Option GridPoint
  | .obj kvs =>
    match objI32? kvs "cx", objI32? kvs "cy" with
    | some a, some b => some ⟨a, b⟩
    | _, _ => none
  | .arr [.int a, .int b] => if inI32 a && inI32 b then some ⟨a, b⟩ else none
  | _ => none

/-- Derived `Deserialize` of `EntityRef` against buffered content: the four
camelCase iid string fields from a map, or a sequence of exactly four
strings. -/
def entityRefFromContent? : Json → Option EntityRef
  | .obj kvs =>
    match objStr? kvs "entityIid", objStr? kvs "layerIid",
          objStr? kvs "levelIid", objStr? kvs "worldIid" with
    | some a, some b, some c, some d => some ⟨a, b, c, d⟩
    | _, _, _, _ => none
  | .arr [.str a, .str b, .str c, .str d] => some ⟨a, b, c, d⟩
  | _ => none

/-- The first struct-shaped variant of the untagged `FieldValue` enum that
accepts the buffered content, in Rust declaration order: `LocalEnum`, then
`ExternEnum` (same shape, so never reached), then `Color` (expects a string,
so never matches structured content), then `Point`, then `EntityRef`. -/
def structVariant? (j : Json) : Option FieldValue :=
  match ldtkEnumFromContent? j with
  | some e => some (.LocalEnum e)
  | none =>
    match gridPointFromContent? j with
    | some p => some (.Point p)
    | none =>
      match entityRefFromContent? j with
      | some r => some (.EntityRef r)
      | none => none

/-- The error serde reports when no variant of an untagged enum matches. -/
def untaggedNoMatch : DecodeError :=
  .custom "data did not match any variant of untagged enum FieldValue"

mutual

/-- Derived untagged `Deserialize` of `FieldValue`: variants are tried in
declaration order against the buffered content.  An integer number that fits
`i32` is `Integer`, otherwise the `Float` attempt succeeds via a numeric cast;
a float number is `Float`; a boolean is `Bool`; a string is always `String`
(the string-subtype variants are unreachable); structured content is matched
by `structVariant?`; a sequence matching no struct shape decodes elementwise
as `Array`. -/
def decodeFieldValue : Json → Except DecodeError FieldValue
  | .int n => if inI32 n then .ok (.Integer n) else .ok (.Float (F32.ofIntCast n))
  | .float f => .ok (.Float f)
  | .bool b => .ok (.Bool b)
  | .str s => .ok (.String s)
  | .null => .error untaggedNoMatch
  | .obj kvs =>
    match structVariant? (.obj kvs) with
    | some v => .ok v
    | none => .error untaggedNoMatch
  | .arr xs =>
    match structVariant? (.arr xs) with
    | some v => .ok v
    | none => (decodeFieldValueList xs).map .Array

/-- Elementwise decode of a JSON array into `Vec<FieldValue>`. -/
def decodeFieldValueList : List Json → Except DecodeError (List FieldValue)
  | [] => .ok []
  | j :: js => do
    let v ← decodeFieldValue j
    let vs ← decodeFieldValueList js
    .ok (v :: vs)

end

mutual

/-- Derived untagged `Serialize` of `FieldValue`: each variant serializes as
its bare payload (derived structs as maps with fields in declaration order,
the color as its `#rrggbb` string per the spec). -/
def encodeFieldValue : FieldValue → Json
  | .Integer n => .int n
  | .Float f => .float f
  | .Bool b => .bool b
  | .String s => .str s
  | .Multilines s => .str s
  | .FilePath s => .str s
  | .LocalEnum e => .obj [("name", .str e.name), ("variant", .str e.variant)]
  | .ExternEnum e => .obj [("name", .str e.name), ("variant", .str e.variant)]
  | .Color c => .str (colorToString c)
  | .Point p => .obj [("cx", .int p.cx), ("cy", .int p.cy)]
  | .EntityRef r =>
    .obj [("entityIid", .str r.entity_iid), ("layerIid", .str r.layer_iid),
          ("levelIid", .str r.level_iid), ("worldIid", .str r.world_iid)]
  | .Array vs => .arr (encodeFieldValueList vs)

/-- Elementwise serialization of `Vec<FieldValue>`. -/
def encodeFieldValueList : List FieldValue → List Json
  | [] => []
  | v :: vs => encodeFieldValue v :: encodeFieldValueList vs

end

/-- Deserializing an `i32` (range-checked). -/
def decodeI32 : Json → Except DecodeError Int
  | .int n => if inI32 n then .ok n else .error (.invalidType "i32")
  | _ => .error (.invalidType "i32")

/-- Deserializing a `String`. -/
def decodeString : Json → Except DecodeError String
  | .str s => .ok s
  | _ => .error (.invalidType "a string")

/-- Modelled from the spec: deserializing the `Nullable` wrapper of
`src/serializing/ldtk/json.rs` (not under src/): JSON `null` is the absent
state, anything else decodes the inner value. -/
def decodeNullable {α : Type} (d : Json → Except DecodeError α) :
    Json → Except DecodeError (Nullable α)
  | .null => .ok .Null
  | j => (d j).map .Data

/-- Modelled from the spec: deserializing a `TilesetRect`
(`src/serializing/ldtk/definitions.rs`, not under src/) from its camelCase
field map. -/
def decodeTilesetRect : Json → Except DecodeError TilesetRect
  | .obj kvs =>
    match objI32? kvs "tilesetUid", objI32? kvs "x", objI32? kvs "y",
          objI32? kvs "w", objI32? kvs "h" with
    | some t, some x, some y, some w, some h => .ok ⟨t, x, y, w, h⟩
    | _, _, _, _, _ => .error (.invalidType "a tileset rect")
  | _ => .error (.invalidType "a tileset rect")

/-- `FieldType`'s `Deserialize` (level.rs): `deserialize_str` with
`FieldTypeVisitor`, so the value must be a string, then normalized. -/
def decodeFieldType : Json → Except DecodeError FieldType
  | .str s => fieldTypeVisitStr s
  | _ => .error (.invalidType "a field type")

mutual

/-- Rendering of a `FieldValue` for the `format!("... got ...", v)` error
messages, standing in for Rust's `Debug` output. -/
def fvRepr : FieldValue → String
  | .Integer n => "Integer(" ++ toString n ++ ")"
  | .Float f => "Float(" ++ toString f.val ++ ")"
  | .Bool b => "Bool(" ++ toString b ++ ")"
  | .String s => "String(" ++ s ++ ")"
  | .Multilines s => "Multilines(" ++ s ++ ")"
  | .FilePath s => "FilePath(" ++ s ++ ")"
  | .LocalEnum e => "LocalEnum(" ++ e.name ++ ", " ++ e.variant ++ ")"
  | .ExternEnum e => "ExternEnum(" ++ e.name ++ ", " ++ e.variant ++ ")"
  | .Color c =>
    "Color(" ++ toString c.r ++ ", " ++ toString c.g ++ ", " ++ toString c.b ++ ")"
  | .Point p => "Point(" ++ toString p.cx ++ ", " ++ toString p.cy ++ ")"
  | .EntityRef r =>
    "EntityRef(" ++ r.entity_iid ++ ", " ++ r.layer_iid ++ ", " ++
      r.level_iid ++ ", " ++ r.world_iid ++ ")"
  | .Array vs => "Array([" ++ fvReprList vs ++ "])"

/-- Rendering of a list of `FieldValue`s, comma separated. -/
def fvReprList : List FieldValue → String
  | [] => ""
  | [v] => fvRepr v
  | v :: vs => fvRepr v ++ ", " ++ fvReprList vs

end

/-- Modelled from the spec: the `transfer_str` macro (not under src/), used as
`transfer_str!(String, Multilines, "multiline string", value)`: a present
plain-string value is re-wrapped by `mk` (same textual payload, distinct tag),
an absent value stays absent, and any other present value fails with a
dedicated error naming the expected kind and the offending value. -/
def transferStr (mk : String → FieldValue) (what : String) (value : Nullable FieldValue) :
    Except DecodeError (Nullable FieldValue) :=
  match value with
  | .Data (.String s) => .ok (.Data (mk s))
  | .Data v => .error (.custom ("expected " ++ what ++ ", got " ++ fvRepr v))
  | .Null => .ok .Null

/-- The re-interpretation match of `FieldInstanceVisitor::visit_map`
(level.rs lines 435-458): after the type tag is known, the deferred value is
passed through unchanged for most kinds, re-wrapped for `Multilines` and
`FilePath`, and parsed for `Color`.  The color branch follows the source
exactly, with the hex parse itself modelled from the spec (the parser lives in
json.rs, not under src/). -/
def reinterpretValue (ty : FieldType) (value : Nullable FieldValue) :
    Except DecodeError (Nullable FieldValue) :=
  match ty with
  | .Int => .ok value
  | .Float => .ok value
  | .Bool => .ok value
  | .String => .ok value
  | .Multilines => transferStr .Multilines "multiline string" value
  | .FilePath => transferStr .FilePath "file path" value
  | .LocalEnum => .ok value
  | .ExternEnum => .ok value
  | .Color =>
    match value with
    | .Data (.String s) => (parseColor s).map (fun c => .Data (.Color c))
    | .Data v => .error (.custom ("expected color, got " ++ fvRepr v))
    | .Null => .ok .Null
  | .Point => .ok value
  | .EntityRef => .ok value
  | .Array => .ok value

/-- The mutable locals of `FieldInstanceVisitor::visit_map` while the object's
entries are being visited. -/
structure FieldAcc where
  def_uid : Option Int
  identifier : Option String
  tile : Option (Nullable TilesetRect)
  ty : Option FieldType
  value : Option (Nullable FieldValue)

/-- All five locals start out unset. -/
def emptyAcc : FieldAcc := ⟨none, none, none, none, none⟩

/-- One iteration of the `while let Some(key) = map.next_key()?` loop of
`visit_map`: classify the key (failing on unknown keys), check for a
duplicate BEFORE consuming the value, then decode the value into the typed
local; the `Skip` key consumes and discards its value. -/
def processKV (acc : FieldAcc) (kv : String × Json) : Except DecodeError FieldAcc :=
  match fieldInstanceFieldsVisitStr kv.1 with
  | .error e => .error e
  | .ok .DefUid =>
    match acc.def_uid with
    | some _ => .error (.duplicateField "defUid")
    | none =>
      match decodeI32 kv.2 with
      | .error e => .error e
      | .ok n => .ok { acc with def_uid := some n }
  | .ok .Identifier =>
    match acc.identifier with
    | some _ => .error (.duplicateField "__identifier")
    | none =>
      match decodeString kv.2 with
      | .error e => .error e
      | .ok s => .ok { acc with identifier := some s }
  | .ok .Tile =>
    match acc.tile with
    | some _ => .error (.duplicateField "__tile")
    | none =>
      match decodeNullable decodeTilesetRect kv.2 with
      | .error e => .error e
      | .ok t => .ok { acc with tile := some t }
  | .ok .Ty =>
    match acc.ty with
    | some _ => .error (.duplicateField "__type")
    | none =>
      match decodeFieldType kv.2 with
      | .error e => .error e
      | .ok t => .ok { acc with ty := some t }
  | .ok .Value =>
    match acc.value with
    | some _ => .error (.duplicateField "__value")
    | none =>
      match decodeNullable decodeFieldValue kv.2 with
      | .error e => .error e
      | .ok v => .ok { acc with value := some v }
  | .ok .Skip => .ok acc

/-- The whole visiting loop, over the object's entries in document order. -/
def visitEntries : List (String × Json) → FieldAcc → Except DecodeError FieldAcc
  | [], acc => .ok acc
  | kv :: rest, acc =>
    match processKV acc kv with
    | .error e => .error e
    | .ok acc' => visitEntries rest acc'

/-- The tail of `visit_map`: the five `ok_or_else(missing_field)` checks in
source order, then the re-interpretation of the deferred value. -/
def finishFieldInstance (acc : FieldAcc) : Except DecodeError FieldInstance :=
  match acc.def_uid with
  | none => .error (.missingField "defUid")
  | some d =>
    match acc.identifier with
    | none => .error (.missingField "__identifier")
    | some i =>
      match acc.tile with
      | none => .error (.missingField "__tile")
      | some t =>
        match acc.ty with
        | none => .error (.missingField "__type")
        | some ty =>
          match acc.value with
          | none => .error (.missingField "__value")
          | some v =>
            match reinterpretValue ty v with
            | .error e => .error e
            | .ok v' => .ok ⟨d, i, t, v'⟩

/-- `FieldInstance`'s `Deserialize` (level.rs): visit the object's entries in
document order, then run the missing-field checks and the value
re-interpretation.  All-or-nothing: any error aborts the whole decode. -/
def decodeFieldInstance (kvs : List (String × Json)) : Except DecodeError FieldInstance :=
  match visitEntries kvs emptyAcc with
  | .error e => .error e
  | .ok acc => finishFieldInstance acc

/-- Whether a decoded `FieldValue` variant is the one a normalized `FieldType`
kind calls for (the pairing the spec's invariant asserts). -/
def variantMatches : FieldType → FieldValue → Bool
  | .Int, .Integer _ => true
  | .Float, .Float _ => true
  | .Bool, .Bool _ => true
  | .String, .String _ => true
  | .Multilines, .Multilines _ => true
  | .FilePath, .FilePath _ => true
  | .LocalEnum, .LocalEnum _ => true
  | .ExternEnum, .ExternEnum _ => true
  | .Color, .Color _ => true
  | .Point, .Point _ => true
  | .EntityRef, .EntityRef _ => true
  | .Array, .Array _ => true
  | _, _ => false

/-! ### Helper lemmas -/

/-- Two prefix tests with different head characters cannot both succeed. -/
theorem strStartsWith_head_ne {s p q : String} {c d : Char} {ps qs : List Char}
    (hp : p.data = c :: ps) (hq : q.data = d :: qs) (hcd : c ≠ d)
    (h : strStartsWith s p = true) : strStartsWith s q = false := by
  unfold strStartsWith at h ⊢
  rw [ List.isPrefixOf_iff_prefix] at h
  rw [Bool.eq_false_iff, Ne, List.isPrefixOf_iff_prefix]
  intro h2
  obtain ⟨t1, e1⟩ := h
  obtain ⟨t2, e2⟩ := h2
  rw [hp, List.cons_append] at e1
  rw [hq, List.cons_append] at e2
  rw [← e1] at e2
  exact hcd (List.cons.inj e2).1.symm

/-- A token starting with the extern-enum prefix does not start with the
local-enum prefix. -/
theorem externEnum_not_localEnum {s : String} (h : strStartsWith s "ExternEnum" = true) :
    strStartsWith s "LocalEnum" = false :=
  strStartsWith_head_ne rfl rfl (by decide) h

/-- A token starting with the array prefix does not start with the local-enum
prefix. -/
theorem array_not_localEnum {s : String} (h : strStartsWith s "Array" = true) :
    strStartsWith s "LocalEnum" = false :=
  strStartsWith_head_ne rfl rfl (by decide) h

/-- A token starting with the array prefix does not start with the extern-enum
prefix. -/
theorem array_not_externEnum {s : String} (h : strStartsWith s "Array" = true) :
    strStartsWith s "ExternEnum" = false :=
  strStartsWith_head_ne rfl rfl (by decide) h

/-! ### C5: type-tag normalization -/

/-- C5: type-tag normalization obeys first-match-wins prefix rules: every token
starting with the local-enum, extern-enum or array prefix is classified
accordingly regardless of suffix; every other token is exact-matched against
the remaining literal names; a token matching neither fails with an error
naming the token; concretely "LocalEnum.Direction" maps to LocalEnum,
"ExternEnum.Anything" to ExternEnum, "Array<Int>" to Array, "Int" to Int, and
"Bogus" is an error. -/
theorem fieldType_tag_normalization :
    (∀ s, strStartsWith s "LocalEnum" = true → fieldTypeVisitStr s = .ok .LocalEnum) ∧
    (∀ s, strStartsWith s "ExternEnum" = true → fieldTypeVisitStr s = .ok .ExternEnum) ∧
    (∀ s, strStartsWith s "Array" = true → fieldTypeVisitStr s = .ok .Array) ∧
    (fieldTypeVisitStr "Int" = .ok .Int ∧ fieldTypeVisitStr "Float" = .ok .Float ∧
      fieldTypeVisitStr "Bool" = .ok .Bool ∧ fieldTypeVisitStr "String" = .ok .String ∧
      fieldTypeVisitStr "Multilines" = .ok .Multilines ∧
      fieldTypeVisitStr "FilePath" = .ok .FilePath ∧ fieldTypeVisitStr "Color" = .ok .Color ∧
      fieldTypeVisitStr "Point" = .ok .Point ∧ fieldTypeVisitStr "EntityRef" = .ok .EntityRef) ∧
    (∀ s, strStartsWith s "LocalEnum" = false → strStartsWith s "ExternEnum" = false →
      strStartsWith s "Array" = false →
      s ∉ (["Int", "Float", "Bool", "String", "Multilines", "FilePath", "Color",
            "Point", "EntityRef"] : List String) →
      fieldTypeVisitStr s = .error (.custom ("Expected a field type, got " ++ s))) ∧
    fieldTypeVisitStr "LocalEnum.Direction" = .ok .LocalEnum ∧
    fieldTypeVisitStr "ExternEnum.Anything" = .ok .ExternEnum ∧
    fieldTypeVisitStr "Array<Int>" = .ok .Array ∧
    fieldTypeVisitStr "Bogus" = .error (.custom "Expected a field type, got Bogus") := by
  refine ⟨?_, ?_, ?_, ⟨rfl, rfl, rfl, rfl, rfl, rfl, rfl, rfl, rfl⟩, ?_, rfl, rfl, rfl, rfl⟩
  · intro s h
    simp [fieldTypeVisitStr, h]
  · intro s h
    simp [fieldTypeVisitStr, h, externEnum_not_localEnum h]
  · intro s h
    simp [fieldTypeVisitStr, h, array_not_localEnum h, array_not_externEnum h]
  · intro s h1 h2 h3 hmem
    simp only [List.mem_cons, List.not_mem_nil, or_false, not_or] at hmem
    obtain ⟨n1, n2, n3, n4, n5, n6, n7, n8, n9⟩ := hmem
    simp [fieldTypeVisitStr, h1, h2, h3, n1, n2, n3, n4, n5, n6, n7, n8, n9]

/-- Witness for C5 at concrete tokens. -/
theorem fieldType_tag_normalization_witness :
    fieldTypeVisitStr "LocalEnum.Dir2" = .ok .LocalEnum ∧
    fieldTypeVisitStr "ExternEnum.X" = .ok .ExternEnum ∧
    fieldTypeVisitStr "ArrayWeird" = .ok .Array ∧
    fieldTypeVisitStr "Bogus2" = .error (.custom "Expected a field type, got Bogus2") :=
  ⟨fieldType_tag_normalization.1 "LocalEnum.Dir2" (by decide),
   fieldType_tag_normalization.2.1 "ExternEnum.X" (by decide),
   fieldType_tag_normalization.2.2.1 "ArrayWeird" (by decide),
   (by
     have := fieldType_tag_normalization.2.2.2.2.1 "Bogus2" (by decide) (by decide)
       (by decide) (by decide)
     simpa using this)⟩

/-! ### C4: Color handling -/

/-- C4: under the Color type tag, an absent deferred value decodes to an
absent field value (not an error); a present string is hex-parsed and
re-wrapped as the Color variant, propagating a MalformedColor failure (for
instance on "#zzzzzz"); a present non-string fails with a descriptive error
that includes the offending value. -/
theorem color_field_handling :
    reinterpretValue .Color .Null = .ok .Null ∧
    (∀ s c, parseColor s = .ok c →
      reinterpretValue .Color (.Data (.String s)) = .ok (.Data (.Color c))) ∧
    (∀ s t, parseColor s = .error t →
      reinterpretValue .Color (.Data (.String s)) = .error t) ∧
    (∀ v : FieldValue, (∀ s, v ≠ .String s) →
      reinterpretValue .Color (.Data v) =
        .error (.custom ("expected color, got " ++ fvRepr v))) ∧
    parseColor "#ff0000" = .ok ⟨255, 0, 0⟩ ∧
    parseColor "#zzzzzz" = .error (.malformedColor "#zzzzzz") ∧
    decodeFieldInstance [("defUid", .int 1), ("__identifier", .str "c"), ("__tile", .null),
        ("__type", .str "Color"), ("__value", .null)] = .ok ⟨1, "c", .Null, .Null⟩ ∧
    decodeFieldInstance [("defUid", .int 1), ("__identifier", .str "c"), ("__tile", .null),
        ("__type", .str "Color"), ("__value", .str "#zzzzzz")] =
      .error (.malformedColor "#zzzzzz") := by
  refine ⟨rfl, ?_, ?_, ?_, rfl, rfl, rfl, rfl⟩
  · intro s c h
    simp [reinterpretValue, h, Except.map]
  · intro s t h
    simp [reinterpretValue, h, Except.map]
  · intro v hv
    cases v with
    | String s => exact absurd rfl (hv s)
    | Integer n => rfl
    | Float f => rfl
    | Bool b => rfl
    | Multilines s => rfl
    | FilePath s => rfl
    | LocalEnum e => rfl
    | ExternEnum e => rfl
    | Color c => rfl
    | Point p => rfl
    | EntityRef r => rfl
    | Array vs => rfl

/-- Witness for C4 at concrete inputs. -/
theorem color_field_handling_witness :
    reinterpretValue .Color (.Data (.String "#ff0000")) = .ok (.Data (.Color ⟨255, 0, 0⟩)) ∧
    reinterpretValue .Color (.Data (.String "#zzzzzz")) =
      .error (.malformedColor "#zzzzzz") ∧
    reinterpretValue .Color (.Data (.Bool true)) =
      .error (.custom ("expected color, got " ++ fvRepr (.Bool true))) :=
  ⟨color_field_handling.2.1 "#ff0000" ⟨255, 0, 0⟩ rfl,
   color_field_handling.2.2.1 "#zzzzzz" (.malformedColor "#zzzzzz") rfl,
   color_field_handling.2.2.2.1 (.Bool true) (fun s h => by cases h)⟩

/-! ### C1: variant/tag pairing -/

/-- A successful `transferStr` with a present result always produced a value
built by the re-wrapping constructor. -/
theorem transferStr_ok_data (mk : String → FieldValue) (what : String)
    (value : Nullable FieldValue) (w : FieldValue)
    (h : transferStr mk what value = .ok (.Data w)) : ∃ s, w = mk s := by
  cases value with
  | Null => simp [transferStr] at h
  | Data u =>
    cases u <;> simp [transferStr] at h
    exact ⟨_, h.symm⟩

/-- C1 counterexample: a field instance whose type tag resolves to ExternEnum
decodes successfully, yet the decoded value carries the LocalEnum variant
(the untagged decode picks the first structurally matching variant and the
ExternEnum branch passes it through unchanged), so the decoded variant does
not match the semantic kind resolved from the type tag. -/
theorem variant_tag_pairing_cex :
    decodeFieldInstance [("defUid", .int 1), ("__identifier", .str "f"), ("__tile", .null),
        ("__type", .str "ExternEnum.Foo"),
        ("__value", .obj [("name", .str "A"), ("variant", .str "B")])] =
      .ok ⟨1, "f", .Null, .Data (.LocalEnum ⟨"A", "B"⟩)⟩ ∧
    decodeFieldType (.str "ExternEnum.Foo") = .ok .ExternEnum ∧
    variantMatches .ExternEnum (.LocalEnum ⟨"A", "B"⟩) = false :=
  ⟨rfl, rfl, rfl⟩

/-- C1 amended: the variant/tag pairing is enforced at decode time only for
the kinds the decoder re-interprets: when re-interpretation under a
Multilines, FilePath or Color tag succeeds with a present value, that value
carries the matching variant; for every other kind the deferred value is
passed through as the untagged structural decode produced it and its variant
can disagree with the tag. -/
theorem variant_tag_pairing_rewrapped (ty : FieldType) (v : Nullable FieldValue)
    (w : FieldValue) (h : reinterpretValue ty v = .ok (.Data w)) :
    (ty = .Multilines → ∃ s, w = .Multilines s) ∧
    (ty = .FilePath → ∃ s, w = .FilePath s) ∧
    (ty = .Color → ∃ c, w = .Color c) := by
  refine ⟨?_, ?_, ?_⟩ <;> intro hty <;> subst hty
  · exact transferStr_ok_data _ _ _ _ h
  · exact transferStr_ok_data _ _ _ _ h
  · cases v with
    | Null => simp [reinterpretValue] at h
    | Data u =>
      cases u <;> simp [reinterpretValue] at h
      rename_i s
      cases hp : parseColor s with
      | error t => rw [hp] at h; simp [Except.map] at h
      | ok c =>
        rw [hp] at h
        simp [Except.map] at h
        exact ⟨c, h.symm⟩

/-- Witness for C1 amended at concrete inputs. -/
theorem variant_tag_pairing_rewrapped_witness :
    (∃ s, FieldValue.Multilines "hello" = .Multilines s) ∧
    (∃ s, FieldValue.FilePath "a/b" = .FilePath s) ∧
    (∃ c, FieldValue.Color ⟨255, 0, 0⟩ = .Color c) :=
  ⟨(variant_tag_pairing_rewrapped .Multilines (.Data (.String "hello"))
      (.Multilines "hello") rfl).1 rfl,
   (variant_tag_pairing_rewrapped .FilePath (.Data (.String "a/b"))
      (.FilePath "a/b") rfl).2.1 rfl,
   (variant_tag_pairing_rewrapped .Color (.Data (.String "#ff0000"))
      (.Color ⟨255, 0, 0⟩) rfl).2.2 rfl⟩

/-! ### C2: unknown keys -/

/-- A key the classifier accepts is one of the five recognized keys or the
legacy skip key. -/
theorem classify_ok_mem (k : String) (f : FieldInstanceFields)
    (h : fieldInstanceFieldsVisitStr k = .ok f) : k ∈ FIELDS ++ ["realEditorValues"] := by
  unfold fieldInstanceFieldsVisitStr at h
  split at h
  · simp_all [FIELDS]
  · split at h
    · simp_all [FIELDS]
    · split at h
      · simp_all [FIELDS]
      · split at h
        · simp_all [FIELDS]
        · split at h
          · simp_all [FIELDS]
          · split at h
            · simp_all [FIELDS]
            · simp at h

/-- A successful loop iteration means the key was accepted by the
classifier. -/
theorem processKV_ok_key (acc acc' : FieldAcc) (kv : String × Json)
    (h : processKV acc kv = .ok acc') : kv.1 ∈ FIELDS ++ ["realEditorValues"] := by
  unfold processKV at h
  cases hc : fieldInstanceFieldsVisitStr kv.1 with
  | error e => rw [hc] at h; exact absurd h (by simp)
  | ok f => exact classify_ok_mem _ _ hc

/-- Every entry a successful visiting loop consumed had a recognized key. -/
theorem visitEntries_ok_keys (kvs : List (String × Json)) (acc acc' : FieldAcc)
    (h : visitEntries kvs acc = .ok acc') :
    ∀ kv ∈ kvs, kv.1 ∈ FIELDS ++ ["realEditorValues"] := by
  induction kvs generalizing acc with
  | nil => intro kv hkv; simp at hkv
  | cons x rest ih =>
    intro kv hkv
    rw [visitEntries] at h
    cases hp : processKV acc x with
    | error e => rw [hp] at h; exact absurd h (by simp)
    | ok acc1 =>
      rw [hp] at h
      rcases List.mem_cons.mp hkv with hkv | hkv
      · subst hkv; exact processKV_ok_key acc acc1 kv hp
      · exact ih acc1 h kv hkv

/-- C2 counterexample: an object carrying all five recognized keys plus one
unrecognized key fails with an unknown-field error naming that key, rather
than ignoring it. -/
theorem unknown_key_rejected_cex :
    decodeFieldInstance [("defUid", .int 1), ("__identifier", .str "a"), ("__tile", .null),
        ("__type", .str "Int"), ("__value", .int 3), ("someFutureKey", .null)] =
      .error (.unknownField "someFutureKey") := rfl

/-- C2 amended: only the legacy key realEditorValues is accepted and silently
skipped beyond the five recognized keys; every key a successful decode
consumed is one of those six, so an unrecognized key always makes decoding
fail (with an unknown-field error naming it). -/
theorem decoded_keys_all_recognized (kvs : List (String × Json)) (fi : FieldInstance)
    (h : decodeFieldInstance kvs = .ok fi) :
    ∀ kv ∈ kvs, kv.1 ∈ FIELDS ++ ["realEditorValues"] := by
  unfold decodeFieldInstance at h
  cases hv : visitEntries kvs emptyAcc with
  | error e => rw [hv] at h; exact absurd h (by simp)
  | ok acc => exact visitEntries_ok_keys kvs emptyAcc acc hv

/-- Witness for C2 amended at a concrete object. -/
theorem decoded_keys_all_recognized_witness :
    ("defUid" : String) ∈ FIELDS ++ ["realEditorValues"] :=
  decoded_keys_all_recognized
    [("defUid", .int 1), ("__identifier", .str "a"), ("__tile", .null),
      ("__type", .str "Int"), ("__value", .int 3)]
    ⟨1, "a", .Null, .Data (.Integer 3)⟩ rfl ("defUid", .int 1) (by simp)

/-! ### C9: legacy key tolerance -/

/-- The visiting loop processes a concatenation left to right. -/
theorem visitEntries_append (l1 l2 : List (String × Json)) (acc : FieldAcc) :
    visitEntries (l1 ++ l2) acc =
      match visitEntries l1 acc with
      | .error e => .error e
      | .ok acc' => visitEntries l2 acc' := by
  induction l1 generalizing acc with
  | nil => rfl
  | cons x rest ih =>
    rw [List.cons_append, visitEntries, visitEntries]
    cases hp : processKV acc x with
    | error e => rfl
    | ok acc1 => exact ih acc1

/-- The legacy key's entry leaves the loop state untouched. -/
theorem processKV_legacy (acc : FieldAcc) (j : Json) :
    processKV acc ("realEditorValues", j) = .ok acc := rfl

/-- C9: an object containing the legacy editor-only key realEditorValues
anywhere decodes exactly as the same object without that entry, so with all
five required keys present it decodes successfully, the legacy value ignored
entirely; concretely such a full object decodes to its expected result. -/
theorem legacy_key_ignored :
    (∀ (pre post : List (String × Json)) (j : Json),
      decodeFieldInstance (pre ++ ("realEditorValues", j) :: post) =
        decodeFieldInstance (pre ++ post)) ∧
    decodeFieldInstance [("defUid", .int 7), ("__identifier", .str "x"), ("__tile", .null),
        ("__type", .str "Int"), ("__value", .int 42),
        ("realEditorValues", .arr [.null, .int 3])] =
      .ok ⟨7, "x", .Null, .Data (.Integer 42)⟩ := by
  constructor
  · intro pre post j
    unfold decodeFieldInstance
    rw [visitEntries_append, visitEntries_append]
    cases visitEntries pre emptyAcc with
    | error e => rfl
    | ok acc => rfl
  · rfl

/-! ### C6: missing-field order -/

/-- The first unset local in the fixed source order of the five
`ok_or_else(missing_field)` checks. -/
def firstMissing (acc : FieldAcc) : Option String :=
  if acc.def_uid.isNone then some "defUid"
  else if acc.identifier.isNone then some "__identifier"
  else if acc.tile.isNone then some "__tile"
  else if acc.ty.isNone then some "__type"
  else if acc.value.isNone then some "__value"
  else none

/-- `finishFieldInstance` fails with the first absent key, in check order. -/
theorem finish_missing (acc : FieldAcc) (name : String)
    (h : firstMissing acc = some name) :
    finishFieldInstance acc = .error (.missingField name) := by
  unfold firstMissing at h
  unfold finishFieldInstance
  cases hd : acc.def_uid <;> cases hi : acc.identifier <;> cases ht : acc.tile <;>
    cases hy : acc.ty <;> cases hv : acc.value <;> simp_all

/-- C6: if the visiting loop finishes without error but at least one of the
five recognized keys was never seen, decoding fails with MissingField naming
the first absent key in the fixed order defUid, identifier, tile, type,
value; in particular omitting only the type tag fails with MissingField for
the type-tag key even though the raw value is present. -/
theorem missing_field_first_absent :
    (∀ (kvs : List (String × Json)) (acc : FieldAcc) (name : String),
      visitEntries kvs emptyAcc = .ok acc → firstMissing acc = some name →
      decodeFieldInstance kvs = .error (.missingField name)) ∧
    decodeFieldInstance [("defUid", .int 1), ("__identifier", .str "a"), ("__tile", .null),
        ("__value", .int 3)] = .error (.missingField "__type") := by
  constructor
  · intro kvs acc name h1 h2
    unfold decodeFieldInstance
    rw [h1]
    exact finish_missing acc name h2
  · rfl

/-- Witness for C6 at a concrete object missing everything past the first
key. -/
theorem missing_field_first_absent_witness :
    decodeFieldInstance [("__identifier", .str "a")] = .error (.missingField "defUid") :=
  missing_field_first_absent.1 [("__identifier", .str "a")]
    ⟨none, some "a", none, none, none⟩ "defUid" rfl rfl

/-! ### C7 and C10: duplicate keys -/

/-- The wire name of each logical field. -/
def slotName : FieldInstanceFields → String
  | .DefUid => "defUid"
  | .Identifier => "__identifier"
  | .Tile => "__tile"
  | .Ty => "__type"
  | .Value => "__value"
  | .Skip => "realEditorValues"

/-- The classifier only accepts a logical field's own wire name. -/
theorem classify_ok_name (k : String) (f : FieldInstanceFields)
    (h : fieldInstanceFieldsVisitStr k = .ok f) : k = slotName f := by
  unfold fieldInstanceFieldsVisitStr at h
  split at h
  · injection h with h2; subst h2; simp_all [slotName]
  · split at h
    · injection h with h2; subst h2; simp_all [slotName]
    · split at h
      · injection h with h2; subst h2; simp_all [slotName]
      · split at h
        · injection h with h2; subst h2; simp_all [slotName]
        · split at h
          · injection h with h2; subst h2; simp_all [slotName]
          · split at h
            · injection h with h2; subst h2; simp_all [slotName]
            · simp at h

/-- Whether the local for a logical field is already set. -/
def accSlotTaken (acc : FieldAcc) : FieldInstanceFields → Bool
  | .DefUid => acc.def_uid.isSome
  | .Identifier => acc.identifier.isSome
  | .Tile => acc.tile.isSome
  | .Ty => acc.ty.isSome
  | .Value => acc.value.isSome
  | .Skip => false

/-- A second occurrence of a recognized key fails with its duplicate-field
error, whatever JSON value it carries: the duplicate check precedes the
value decode. -/
theorem processKV_duplicate (acc : FieldAcc) (k : String) (j : Json)
    (f : FieldInstanceFields) (hc : fieldInstanceFieldsVisitStr k = .ok f)
    (hf : f ≠ .Skip) (ht : accSlotTaken acc f = true) :
    processKV acc (k, j) = .error (.duplicateField k) := by
  have hk := classify_ok_name k f hc
  subst hk
  unfold processKV
  rw [hc]
  cases f with
  | Skip => exact absurd rfl hf
  | DefUid =>
    simp only [accSlotTaken] at ht
    rw [Option.isSome_iff_exists] at ht
    obtain ⟨v, hv⟩ := ht
    simp [hv, slotName]
  | Identifier =>
    simp only [accSlotTaken] at ht
    rw [Option.isSome_iff_exists] at ht
    obtain ⟨v, hv⟩ := ht
    simp [hv, slotName]
  | Tile =>
    simp only [accSlotTaken] at ht
    rw [Option.isSome_iff_exists] at ht
    obtain ⟨v, hv⟩ := ht
    simp [hv, slotName]
  | Ty =>
    simp only [accSlotTaken] at ht
    rw [Option.isSome_iff_exists] at ht
    obtain ⟨v, hv⟩ := ht
    simp [hv, slotName]
  | Value =>
    simp only [accSlotTaken] at ht
    rw [Option.isSome_iff_exists] at ht
    obtain ⟨v, hv⟩ := ht
    simp [hv, slotName]

/-- The visiting loop's one-step equation. -/
theorem visitEntries_cons (kv : String × Json) (rest : List (String × Json)) (acc : FieldAcc) :
    visitEntries (kv :: rest) acc =
      match processKV acc kv with
      | .error e => .error e
      | .ok acc' => visitEntries rest acc' := rfl

/-- C7: an object in which one of the five recognized keys occurs a second
time fails with DuplicateField naming that key, regardless of the value the
second occurrence carries (and so regardless of whether the occurrences
agree); concretely an object with the identifier key twice with equal values
fails with DuplicateField "__identifier". -/
theorem duplicate_key_detected :
    (∀ (pre post : List (String × Json)) (k : String) (j : Json) (acc : FieldAcc)
        (f : FieldInstanceFields),
      visitEntries pre emptyAcc = .ok acc →
      fieldInstanceFieldsVisitStr k = .ok f → f ≠ .Skip → accSlotTaken acc f = true →
      decodeFieldInstance (pre ++ (k, j) :: post) = .error (.duplicateField k)) ∧
    decodeFieldInstance [("__identifier", .str "a"), ("__identifier", .str "a")] =
      .error (.duplicateField "__identifier") := by
  constructor
  · intro pre post k j acc f h1 hc hf ht
    have h3 := processKV_duplicate acc k j f hc hf ht
    have h2 : visitEntries (pre ++ (k, j) :: post) emptyAcc = .error (.duplicateField k) := by
      rw [visitEntries_append, h1]
      show visitEntries ((k, j) :: post) acc = .error (.duplicateField k)
      rw [visitEntries_cons, h3]
    unfold decodeFieldInstance
    rw [h2]
  · rfl

/-- Witness for C7: a duplicate tile key with an undecoded second value. -/
theorem duplicate_key_detected_witness :
    decodeFieldInstance [("__tile", .null), ("__tile", .null), ("defUid", .int 1)] =
      .error (.duplicateField "__tile") :=
  duplicate_key_detected.1 [("__tile", .null)] [("defUid", .int 1)] "__tile" .null
    ⟨none, none, some .Null, none, none⟩ .Tile rfl rfl (fun h => nomatch h) rfl

/-- `Except.ok`-ness as a boolean. -/
def exOk {ε α : Type} : Except ε α → Bool
  | .ok _ => true
  | .error _ => false

/-- A true `exOk` exposes the payload. -/
theorem exOk_ok {ε α : Type} (e : Except ε α) (h : exOk e = true) : ∃ a, e = .ok a := by
  cases e with
  | error err => simp [exOk] at h
  | ok a => exact ⟨a, rfl⟩

/-- Whether a logical field's `next_value` decode succeeds on a JSON value. -/
def slotValueOk : FieldInstanceFields → Json → Bool
  | .DefUid, j => exOk (decodeI32 j)
  | .Identifier, j => exOk (decodeString j)
  | .Tile, j => exOk (decodeNullable decodeTilesetRect j)
  | .Ty, j => exOk (decodeFieldType j)
  | .Value, j => exOk (decodeNullable decodeFieldValue j)
  | .Skip, _ => true

/-- C10: when a recognized key repeats, the loop iteration reports the
duplicate-field error before attempting to decode the repeated occurrence's
value, so the duplicate error is produced even when that value would itself
fail to decode; concretely a second defUid entry carrying a string still
yields DuplicateField "defUid". -/
theorem duplicate_before_value :
    (∀ (acc : FieldAcc) (k : String) (j : Json) (f : FieldInstanceFields),
      fieldInstanceFieldsVisitStr k = .ok f → f ≠ .Skip → accSlotTaken acc f = true →
      slotValueOk f j = false →
      processKV acc (k, j) = .error (.duplicateField k)) ∧
    decodeFieldInstance [("defUid", .int 1), ("defUid", .str "garbage")] =
      .error (.duplicateField "defUid") := by
  constructor
  · intro acc k j f hc hf ht _
    exact processKV_duplicate acc k j f hc hf ht
  · rfl

/-- Witness for C10: a taken defUid slot and an undecodable second value. -/
theorem duplicate_before_value_witness :
    processKV ⟨some 1, none, none, none, none⟩ ("defUid", .str "garbage") =
      .error (.duplicateField "defUid") ∧
    slotValueOk .DefUid (.str "garbage") = false :=
  ⟨duplicate_before_value.1 ⟨some 1, none, none, none, none⟩ "defUid" (.str "garbage")
      .DefUid rfl (fun h => nomatch h) rfl rfl,
   rfl⟩

/-! ### C3: encode/decode round trip -/

/-- C3 counterexample: the round trip fails for ExternEnum (whose wire form is
indistinguishable from LocalEnum, tried first) and for an Array whose wire
form collides with a struct shape (a two-integer array decodes as Point). -/
theorem field_value_roundtrip_cex :
    decodeFieldValue (encodeFieldValue (.ExternEnum ⟨"Direction", "North"⟩)) =
      .ok (.LocalEnum ⟨"Direction", "North"⟩) ∧
    decodeFieldValue (encodeFieldValue (.Array [.Integer 1, .Integer 2])) =
      .ok (.Point ⟨1, 2⟩) :=
  ⟨rfl, rfl⟩

/-- C3 amended: decode(encode(v)) == v holds for the Integer (within i32
range), Float, Bool, String, LocalEnum, Point (coordinates within i32 range)
and EntityRef variants.  Beyond the string-subtype variants the claim already
excepts, it fails for ExternEnum (which decodes back as LocalEnum), for Color
(whose hex-string wire form decodes back as String), and for Array values
whose wire form collides with an earlier untagged variant's shape (two
strings decode as LocalEnum, two in-range integers as Point, four strings as
EntityRef). -/
theorem field_value_roundtrip_amended :
    (∀ n, inI32 n = true → decodeFieldValue (encodeFieldValue (.Integer n)) = .ok (.Integer n)) ∧
    (∀ f, decodeFieldValue (encodeFieldValue (.Float f)) = .ok (.Float f)) ∧
    (∀ b, decodeFieldValue (encodeFieldValue (.Bool b)) = .ok (.Bool b)) ∧
    (∀ s, decodeFieldValue (encodeFieldValue (.String s)) = .ok (.String s)) ∧
    (∀ e, decodeFieldValue (encodeFieldValue (.LocalEnum e)) = .ok (.LocalEnum e)) ∧
    (∀ p : GridPoint, inI32 p.cx = true → inI32 p.cy = true →
      decodeFieldValue (encodeFieldValue (.Point p)) = .ok (.Point p)) ∧
    (∀ r, decodeFieldValue (encodeFieldValue (.EntityRef r)) = .ok (.EntityRef r)) := by
  refine ⟨?_, fun f => rfl, fun b => rfl, fun s => rfl, fun e => rfl, ?_, fun r => rfl⟩
  · intro n h
    simp [encodeFieldValue, decodeFieldValue, h]
  · intro p h1 h2
    simp [encodeFieldValue, decodeFieldValue, structVariant?, ldtkEnumFromContent?,
      gridPointFromContent?, objStr?, objI32?, lookupUnique, h1, h2]

/-- Witness for C3 amended at concrete values. -/
theorem field_value_roundtrip_witness :
    decodeFieldValue (encodeFieldValue (.Integer 7)) = .ok (.Integer 7) ∧
    decodeFieldValue (encodeFieldValue (.Point ⟨3, 4⟩)) = .ok (.Point ⟨3, 4⟩) :=
  ⟨field_value_roundtrip_amended.1 7 rfl,
   field_value_roundtrip_amended.2.2.2.2.2.1 ⟨3, 4⟩ rfl rfl⟩

/-! ### C8: order independence -/

/-- Whether a key is recognized and its local is still unset. -/
def slotFreeFor (acc : FieldAcc) (k : String) : Bool :=
  match fieldInstanceFieldsVisitStr k with
  | .ok f => !accSlotTaken acc f
  | .error _ => false

/-- Whether an entry's key is recognized and its value decodes at its slot. -/
def entryValueOk (kv : String × Json) : Bool :=
  match fieldInstanceFieldsVisitStr kv.1 with
  | .ok f => slotValueOk f kv.2
  | .error _ => false

/-- A false `isSome` under negation exposes `none`. -/
theorem notSome_eq_none {α : Type} (o : Option α) (h : (!o.isSome) = true) : o = none := by
  cases o with
  | none => rfl
  | some v => simp at h

/-- Step equation of the loop at the defUid key. -/
theorem processKV_defUid (acc : FieldAcc) (j : Json) :
    processKV acc ("defUid", j) =
      match acc.def_uid with
      | some _ => .error (.duplicateField "defUid")
      | none =>
        match decodeI32 j with
        | .error e => .error e
        | .ok n => .ok { acc with def_uid := some n } := rfl

/-- Step equation of the loop at the identifier key. -/
theorem processKV_identifier (acc : FieldAcc) (j : Json) :
    processKV acc ("__identifier", j) =
      match acc.identifier with
      | some _ => .error (.duplicateField "__identifier")
      | none =>
        match decodeString j with
        | .error e => .error e
        | .ok s => .ok { acc with identifier := some s } := rfl

/-- Step equation of the loop at the tile key. -/
theorem processKV_tile (acc : FieldAcc) (j : Json) :
    processKV acc ("__tile", j) =
      match acc.tile with
      | some _ => .error (.duplicateField "__tile")
      | none =>
        match decodeNullable decodeTilesetRect j with
        | .error e => .error e
        | .ok t => .ok { acc with tile := some t } := rfl

/-- Step equation of the loop at the type key. -/
theorem processKV_type (acc : FieldAcc) (j : Json) :
    processKV acc ("__type", j) =
      match acc.ty with
      | some _ => .error (.duplicateField "__type")
      | none =>
        match decodeFieldType j with
        | .error e => .error e
        | .ok t => .ok { acc with ty := some t } := rfl

/-- Step equation of the loop at the value key. -/
theorem processKV_value (acc : FieldAcc) (j : Json) :
    processKV acc ("__value", j) =
      match acc.value with
      | some _ => .error (.duplicateField "__value")
      | none =>
        match decodeNullable decodeFieldValue j with
        | .error e => .error e
        | .ok v => .ok { acc with value := some v } := rfl

/-- A successful loop iteration on one key leaves the free/taken state of
every other key unchanged. -/
theorem processKV_ok_frame (acc acc' : FieldAcc) (x : String × Json) (k : String)
    (h : processKV acc x = .ok acc') (hne : k ≠ x.1) :
    slotFreeFor acc' k = slotFreeFor acc k := by
  obtain ⟨xk, xj⟩ := x
  simp only at hne
  unfold processKV at h
  cases hc : fieldInstanceFieldsVisitStr xk with
  | error e => rw [hc] at h; exact absurd h (by simp)
  | ok f =>
    rw [hc] at h
    have hxk : xk = slotName f := classify_ok_name _ _ hc
    subst hxk
    cases f with
    | Skip =>
      injection h with h'
      subst h'
      rfl
    | DefUid =>
      cases hdu : acc.def_uid with
      | some v => rw [hdu] at h; exact absurd h (by simp)
      | none =>
        rw [hdu] at h
        cases hdv : decodeI32 xj with
        | error e => rw [hdv] at h; exact absurd h (by simp)
        | ok n =>
          rw [hdv] at h
          injection h with h'
          subst h'
          unfold slotFreeFor
          cases hck : fieldInstanceFieldsVisitStr k with
          | error e2 => rfl
          | ok g =>
            cases g <;>
              first
              | rfl
              | exact absurd (classify_ok_name _ _ hck) hne
    | Identifier =>
      cases hdu : acc.identifier with
      | some v => rw [hdu] at h; exact absurd h (by simp)
      | none =>
        rw [hdu] at h
        cases hdv : decodeString xj with
        | error e => rw [hdv] at h; exact absurd h (by simp)
        | ok n =>
          rw [hdv] at h
          injection h with h'
          subst h'
          unfold slotFreeFor
          cases hck : fieldInstanceFieldsVisitStr k with
          | error e2 => rfl
          | ok g =>
            cases g <;>
              first
              | rfl
              | exact absurd (classify_ok_name _ _ hck) hne
    | Tile =>
      cases hdu : acc.tile with
      | some v => rw [hdu] at h; exact absurd h (by simp)
      | none =>
        rw [hdu] at h
        cases hdv : decodeNullable decodeTilesetRect xj with
        | error e => rw [hdv] at h; exact absurd h (by simp)
        | ok n =>
          rw [hdv] at h
          injection h with h'
          subst h'
          unfold slotFreeFor
          cases hck : fieldInstanceFieldsVisitStr k with
          | error e2 => rfl
          | ok g =>
            cases g <;>
              first
              | rfl
              | exact absurd (classify_ok_name _ _ hck) hne
    | Ty =>
      cases hdu : acc.ty with
      | some v => rw [hdu] at h; exact absurd h (by simp)
      | none =>
        rw [hdu] at h
        cases hdv : decodeFieldType xj with
        | error e => rw [hdv] at h; exact absurd h (by simp)
        | ok n =>
          rw [hdv] at h
          injection h with h'
          subst h'
          unfold slotFreeFor
          cases hck : fieldInstanceFieldsVisitStr k with
          | error e2 => rfl
          | ok g =>
            cases g <;>
              first
              | rfl
              | exact absurd (classify_ok_name _ _ hck) hne
    | Value =>
      cases hdu : acc.value with
      | some v => rw [hdu] at h; exact absurd h (by simp)
      | none =>
        rw [hdu] at h
        cases hdv : decodeNullable decodeFieldValue xj with
        | error e => rw [hdv] at h; exact absurd h (by simp)
        | ok n =>
          rw [hdv] at h
          injection h with h'
          subst h'
          unfold slotFreeFor
          cases hck : fieldInstanceFieldsVisitStr k with
          | error e2 => rfl
          | ok g =>
            cases g <;>
              first
              | rfl
              | exact absurd (classify_ok_name _ _ hck) hne

/-- Two successful-to-be loop iterations on distinct recognized keys with
still-free slots and decodable values commute. -/
theorem processKV_comm (acc : FieldAcc) (x y : String × Json)
    (hx : x.1 ∈ FIELDS) (hy : y.1 ∈ FIELDS) (hne : x.1 ≠ y.1)
    (hfx : slotFreeFor acc x.1 = true) (hfy : slotFreeFor acc y.1 = true)
    (hvx : entryValueOk x = true) (hvy : entryValueOk y = true) :
    Except.bind (processKV acc x) (fun a => processKV a y) =
      Except.bind (processKV acc y) (fun a => processKV a x) := by
  obtain ⟨xk, xj⟩ := x
  obtain ⟨yk, yj⟩ := y
  simp only [FIELDS, List.mem_cons, List.not_mem_nil, or_false] at hx hy
  simp only at hne hfx hfy
  rcases hx with rfl | rfl | rfl | rfl | rfl <;>
    rcases hy with rfl | rfl | rfl | rfl | rfl <;>
    first
    | exact absurd rfl hne
    | (obtain ⟨vx, hvx2⟩ := exOk_ok _ hvx
       obtain ⟨vy, hvy2⟩ := exOk_ok _ hvy
       have hx0 := notSome_eq_none _ hfx
       have hy0 := notSome_eq_none _ hfy
       simp [processKV_defUid, processKV_identifier, processKV_tile, processKV_type,
         processKV_value, hx0, hy0, hvx2, hvy2, Except.bind])

/-- The visiting loop over two leading entries, as chained binds. -/
theorem visitEntries_cons_cons (a b : String × Json) (l : List (String × Json))
    (acc : FieldAcc) :
    visitEntries (a :: b :: l) acc =
      Except.bind (Except.bind (processKV acc a) (fun s => processKV s b))
        (fun s => visitEntries l s) := by
  cases h1 : processKV acc a with
  | error e => simp [visitEntries_cons, h1, Except.bind]
  | ok s1 =>
    cases h2 : processKV s1 b with
    | error e => simp [visitEntries_cons, h1, h2, Except.bind]
    | ok s2 => simp [visitEntries_cons, h1, h2, Except.bind]

/-- Visiting a list of distinct recognized keys with decodable values, all of
whose slots are still free, yields the same outcome in any order. -/
theorem visitEntries_perm {l₁ l₂ : List (String × Json)} (p : l₁.Perm l₂) :
    (∀ kv ∈ l₁, kv.1 ∈ FIELDS) → (l₁.map Prod.fst).Nodup →
    (∀ kv ∈ l₁, entryValueOk kv = true) →
    ∀ acc, (∀ kv ∈ l₁, slotFreeFor acc kv.1 = true) →
    visitEntries l₁ acc = visitEntries l₂ acc := by
  induction p with
  | nil => intro _ _ _ acc _; rfl
  | cons x p' ih =>
    intro hk hd hv acc hf
    rw [visitEntries_cons, visitEntries_cons]
    cases hp : processKV acc x with
    | error e => rfl
    | ok acc1 =>
      simp only [List.map_cons, List.nodup_cons] at hd
      refine ih (fun kv hkv => hk kv (List.mem_cons_of_mem _ hkv)) hd.2
        (fun kv hkv => hv kv (List.mem_cons_of_mem _ hkv)) acc1 ?_
      intro kv hkv
      have hne : kv.1 ≠ x.1 := by
        intro he
        exact hd.1 (he ▸ List.mem_map_of_mem Prod.fst hkv)
      rw [processKV_ok_frame acc acc1 x kv.1 hp hne]
      exact hf kv (List.mem_cons_of_mem _ hkv)
  | swap x y l =>
    intro hk hd hv acc hf
    rw [visitEntries_cons_cons, visitEntries_cons_cons]
    have hxy : y.1 ≠ x.1 := by
      simp only [List.map_cons, List.nodup_cons, List.mem_cons, List.mem_map] at hd
      exact fun he => hd.1 (.inl he)
    rw [processKV_comm acc y x (hk y (by simp)) (hk x (by simp)) hxy
      (hf y (by simp)) (hf x (by simp)) (hv y (by simp)) (hv x (by simp))]
  | trans p₁ p₂ ih₁ ih₂ =>
    intro hk hd hv acc hf
    rw [ih₁ hk hd hv acc hf]
    refine ih₂ (fun kv hkv => hk kv (p₁.mem_iff.mpr hkv))
      (((p₁.map Prod.fst).nodup_iff).mp hd)
      (fun kv hkv => hv kv (p₁.mem_iff.mpr hkv)) acc
      (fun kv hkv => hf kv (p₁.mem_iff.mpr hkv))

/-- C8: field-instance decoding is order-independent: two objects carrying
the same recognized key/value pairs in different orders decode identically
(stated for any permutation of distinct recognized keys whose values decode),
and in particular the orders {value, type, identifier, defUid, tile} and
{defUid, identifier, tile, type, value} with the same data decode to
identical results, even though the raw-value key precedes the type-tag key
in the first. -/
theorem field_instance_order_independent :
    (∀ (kvs₁ kvs₂ : List (String × Json)), kvs₁.Perm kvs₂ →
      (∀ kv ∈ kvs₁, kv.1 ∈ FIELDS) → (kvs₁.map Prod.fst).Nodup →
      (∀ kv ∈ kvs₁, entryValueOk kv = true) →
      decodeFieldInstance kvs₁ = decodeFieldInstance kvs₂) ∧
    (∀ (jd ji jt jty jv : Json) (d : Int) (i : String) (t : Nullable TilesetRect)
        (ty : FieldType) (v : Nullable FieldValue),
      decodeI32 jd = .ok d → decodeString ji = .ok i →
      decodeNullable decodeTilesetRect jt = .ok t → decodeFieldType jty = .ok ty →
      decodeNullable decodeFieldValue jv = .ok v →
      decodeFieldInstance [("__value", jv), ("__type", jty), ("__identifier", ji),
          ("defUid", jd), ("__tile", jt)] =
        decodeFieldInstance [("defUid", jd), ("__identifier", ji), ("__tile", jt),
          ("__type", jty), ("__value", jv)]) := by
  constructor
  · intro kvs₁ kvs₂ p hk hd hv
    unfold decodeFieldInstance
    rw [visitEntries_perm p hk hd hv emptyAcc ?_]
    intro kv hkv
    have hm := hk kv hkv
    simp only [FIELDS, List.mem_cons, List.not_mem_nil, or_false] at hm
    rcases hm with h | h | h | h | h <;> rw [h] <;> rfl
  · intro jd ji jt jty jv d i t ty v h1 h2 h3 h4 h5
    simp [decodeFieldInstance, visitEntries_cons, processKV_defUid, processKV_identifier,
      processKV_tile, processKV_type, processKV_value, h1, h2, h3, h4, h5, emptyAcc]

/-- Witness for C8 at the two concrete key orders. -/
theorem field_instance_order_independent_witness :
    decodeFieldInstance [("__value", .int 5), ("__type", .str "Int"),
        ("__identifier", .str "n"), ("defUid", .int 2), ("__tile", .null)] =
      decodeFieldInstance [("defUid", .int 2), ("__identifier", .str "n"), ("__tile", .null),
        ("__type", .str "Int"), ("__value", .int 5)] :=
  field_instance_order_independent.2 (.int 2) (.str "n") .null (.str "Int") (.int 5)
    2 "n" .Null .Int (.Data (.Integer 5)) rfl rfl rfl rfl rfl
